import Mathlib

/-!
Shallow embedding of the graph-construction layer of the temporian
repository: the glue operator (`temporian/core/operators/glue.py`), the
unary elementwise operators (`temporian/core/operators/unary.py`) and the
calendar-minute operator (`temporian/core/operators/calendar/minute.py`),
together with the parts of the node/sampling model they rely on.

Sampling identity (Python object identity) is modelled by an arena
identifier: two nodes have "the same sampling" iff their `samplingId`
fields are equal, following the design note of the spec that identity
equality is equivalent to equality of arena indexes.
-/

namespace Temporian

/-- `DType` enum from `temporian/core/data/dtype.py` (referenced by
`unary.py`): the primitive value types. -/
inductive DType where
  | boolean
  | int32
  | int64
  | float32
  | float64
  | string
deriving DecidableEq, Repr

/-- One (feature-name, dtype) entry of a Schema, as consumed by
`glue.py` (`input.schema.features`) and `unary.py` (`input.features`). -/
structure FeatureSchema where
  name : String
  dtype : DType
deriving DecidableEq, Repr

/-- The part of an `EventSetNode` the embedded operators consult: its
feature schemas, its Sampling reference (an arena id standing for Python
object identity), its index schema and the unix-timestamp flag. -/
structure Node where
  features : List FeatureSchema
  samplingId : Nat
  indexes : List FeatureSchema
  is_unix_timestamp : Bool
deriving DecidableEq, Repr

/-- Construction-time error taxonomy of the spec (§7), one constructor per
raise site of the embedded code. `dtypeError` and `duplicateFeature`
carry the data the corresponding Python messages name. -/
inductive GraphError where
  | arityTooFew
  | arityTooMany
  | samplingMismatch
  | duplicateFeature (name : String)
  | dtypeError (allowed : List DType) (featureName : String) (dtype : DType)
  | precondNotUnixTimestamp
deriving DecidableEq, Repr

/-! ## Glue operator (`temporian/core/operators/glue.py`) -/

/-- `MAX_NUM_ARGUMENTS` constant, glue.py line 24. -/
def MAX_NUM_ARGUMENTS : Nat := 30

/-- The inner `for f in input.schema.features` loop of
`GlueOperator.__init__` (glue.py lines 57-63): walk one input's features,
raising `duplicateFeature` on the first name already seen, otherwise
accumulating the names into the `feature_names` set (modelled as a list
queried by membership). -/
def glueCheckFeatures : List FeatureSchema → List String →
    Except GraphError (List String)
  | [], seen => .ok seen
  | f :: rest, seen =>
    if f.name ∈ seen then .error (.duplicateFeature f.name)
    else glueCheckFeatures rest (f.name :: seen)

/-- The `for key, input in inputs.items()` loop of `GlueOperator.__init__`
(glue.py lines 51-68): for each input, extend the output feature schemas,
check duplicate feature names, then check that its sampling is identical
to the first input's (`check_same_sampling`, an identity check per the
spec). Returns the accumulated output feature schemas and the first
input. -/
def glueLoop : List Node → List String → List FeatureSchema → Option Node →
    Except GraphError (List FeatureSchema × Node)
  | [], _, _, none => .error .arityTooFew
  | [], _, acc, some first => .ok (acc, first)
  | n :: rest, seen, acc, first =>
    match glueCheckFeatures n.features seen with
    | .error e => .error e
    | .ok seen' =>
      match first with
      | none => glueLoop rest seen' (acc ++ n.features) (some n)
      | some f =>
        if n.samplingId = f.samplingId then
          glueLoop rest seen' (acc ++ n.features) (some f)
        else
          .error .samplingMismatch

/-- `GlueOperator.__init__` (glue.py lines 28-85): arity checks
(`len(inputs) < 2` and `len(inputs) >= MAX_NUM_ARGUMENTS`), the input
loop, then the output node built from the accumulated feature schemas
with the first input's sampling, indexes and unix-timestamp flag. -/
def GlueOperator_init (inputs : List Node) : Except GraphError Node :=
  if inputs.length < 2 then .error .arityTooFew
  else if MAX_NUM_ARGUMENTS ≤ inputs.length then .error .arityTooMany
  else
    match glueLoop inputs [] [] none with
    | .error e => .error e
    | .ok (feats, first) =>
      .ok { features := feats
            samplingId := first.samplingId
            indexes := first.indexes
            is_unix_timestamp := first.is_unix_timestamp }

/-- Public `glue` function (glue.py lines 103-148): with exactly one
input, return it unchanged; otherwise construct a `GlueOperator` over the
inputs in order and return its output node. -/
def glue : List Node → Except GraphError Node
  | [a] => .ok a
  | inputs => GlueOperator_init inputs

/-! ## Unary elementwise operators (`temporian/core/operators/unary.py`) -/

/-- The five concrete subclasses of `BaseUnaryOperator`. -/
inductive UnaryOpKind where
  | invert
  | isnan
  | notnan
  | abs
  | log
deriving DecidableEq, Repr

/-- The `allowed_dtypes` class property of each subclass
(unary.py lines 104-191). -/
def allowed_dtypes : UnaryOpKind → List DType
  | .invert => [.boolean]
  | .isnan => [.boolean, .float32, .float64, .int32, .int64]
  | .notnan => [.boolean, .float32, .float64, .int32, .int64]
  | .abs => [.float32, .float64, .int32, .int64]
  | .log => [.float32, .float64]

/-- The `get_output_dtype` class method of each subclass
(unary.py lines 109-195). -/
def get_output_dtype : UnaryOpKind → DType → DType
  | .invert, _ => .boolean
  | .isnan, _ => .boolean
  | .notnan, _ => .boolean
  | .abs, d => d
  | .log, d => d

/-- The `for feature in input.features` dtype check of
`BaseUnaryOperator.__init__` (unary.py lines 38-43): the first feature
whose dtype is not in the operator's allowed set raises an error naming
the allowed set, the feature and its dtype. -/
def unaryCheckDtypes (op : UnaryOpKind) : List FeatureSchema →
    Except GraphError Unit
  | [] => .ok ()
  | f :: rest =>
    if f.dtype ∈ allowed_dtypes op then unaryCheckDtypes op rest
    else .error (.dtypeError (allowed_dtypes op) f.name f.dtype)

/-- `BaseUnaryOperator.__init__` (unary.py lines 28-67): check every
feature's dtype, then build the output node with one feature per input
feature (same name, dtype mapped by `get_output_dtype`) and the input's
sampling reference. -/
def BaseUnaryOperator_init (op : UnaryOpKind) (input : Node) :
    Except GraphError Node :=
  match unaryCheckDtypes op input.features with
  | .error e => .error e
  | .ok _ =>
    .ok { features := input.features.map
            (fun f => { name := f.name, dtype := get_output_dtype op f.dtype })
          samplingId := input.samplingId
          indexes := input.indexes
          is_unix_timestamp := input.is_unix_timestamp }

/-! ## Calendar minute operator
(`temporian/core/operators/calendar/minute.py`) -/

/-- Modelled from the spec: `BaseCalendarOperator`
(`temporian/core/operators/calendar/base.py` is not in the excerpt).
Per the spec (§4.3), a calendar operator has one input slot used only for
its Sampling, requires the input Sampling's is-unix-timestamp flag to be
true — else it fails with the `PreconditionError` of the taxonomy — and
on success outputs a single feature with the operator's fixed output
feature name and a fixed integer DType (int32), sharing the input's
sampling. -/
def BaseCalendarOperator_init (outputFeatureName : String) (sampling : Node) :
    Except GraphError Node :=
  if sampling.is_unix_timestamp then
    .ok { features := [{ name := outputFeatureName, dtype := .int32 }]
          samplingId := sampling.samplingId
          indexes := sampling.indexes
          is_unix_timestamp := sampling.is_unix_timestamp }
  else
    .error .precondNotUnixTimestamp

/-- `CalendarMinuteOperator.output_feature_name` (minute.py lines 29-31). -/
def CalendarMinuteOperator_output_feature_name : String := "calendar_minute"

/-- `calendar_minute` public function (minute.py lines 37-76): construct a
`CalendarMinuteOperator` on the input and return its output node. -/
def calendar_minute (sampling : Node) : Except GraphError Node :=
  BaseCalendarOperator_init CalendarMinuteOperator_output_feature_name sampling

/-- Modelled from the spec: the calendar-minute computation kernel (the
numpy implementation is not in the excerpt). The minute of a unix
timestamp `t` (in seconds) is the Euclidean remainder mod 60 of the
number of whole minutes. -/
def minuteOfTimestamp (t : Int) : Int :=
  (t.ediv 60).emod 60

/-! ## Dual-mode invocation (graph mode vs eager mode)

`temporian/core/compilation.py` and the evaluation engine are not in the
excerpt; both sides below are assembled per the spec (§4.4, §4.5) from
the graph-construction layer embedded above. -/

/-- The operators registered in the catalog by the excerpt
(`operator_lib.register_operator` calls in unary.py, glue.py and
minute.py). -/
inductive OpCall where
  | unaryCall (op : UnaryOpKind)
  | glueCall
  | calendarMinuteCall
deriving DecidableEq, Repr

/-- The operator catalog of the excerpt. -/
def operatorCatalog : List OpCall :=
  [.unaryCall .invert, .unaryCall .isnan, .unaryCall .notnan,
   .unaryCall .abs, .unaryCall .log, .glueCall, .calendarMinuteCall]

/-- A materialized `EventSet`: its symbolic shape (a `Node` carrying
Schema and Sampling) plus an opaque stand-in for the columnar data. The
numeric content of kernels is out of the spec's scope, so evaluation is
stated for an arbitrary kernel assignment. -/
structure EventSet where
  node : Node
  payload : List Int
deriving DecidableEq, Repr

/-- A kernel assignment: for each operator, a pure function from the
input payloads to the output payload (spec §6). -/
def Kernel : Type := OpCall → List (List Int) → List Int

/-- Graph construction for one operator call: dispatch to the operator's
constructor with the given input nodes. A number of inputs that does not
fit the operator's declared slots is an arity violation. -/
def constructOp : OpCall → List Node → Except GraphError Node
  | .unaryCall op, [n] => BaseUnaryOperator_init op n
  | .glueCall, ns => GlueOperator_init ns
  | .calendarMinuteCall, [n] => calendar_minute n
  | _, _ => .error .arityTooFew

/-- Modelled from the spec (§4.5): the evaluation engine on a one-shot
single-operator graph dispatches the operator's kernel exactly once with
the materialized inputs and returns an `EventSet` carrying the Schema and
Sampling the symbolic layer predicted. -/
def runEngine (k : Kernel) (op : OpCall) (outNode : Node)
    (data : List EventSet) : EventSet :=
  { node := outNode, payload := k op (data.map (fun e => e.payload)) }

/-- Graph-mode invocation of one operator on materialized inputs: wrap
each `EventSet` as a graph-input node carrying its Schema/Sampling, build
the one-shot operator graph, and run the evaluation engine on it. -/
def graphModeInvoke (k : Kernel) (op : OpCall) (data : List EventSet) :
    Except GraphError EventSet :=
  (constructOp op (data.map (fun e => e.node))).map
    (fun outNode => runEngine k op outNode data)

/-- First feature of `fs` whose name was already seen (either in `seen`
or earlier in `fs`), if any. -/
def firstDupName : List FeatureSchema → List String → Option String
  | [], _ => none
  | f :: rest, seen =>
    if f.name ∈ seen then some f.name
    else firstDupName rest (f.name :: seen)

/-- Modelled from the spec (§4.3): the glue legality checks stated
directly over the materialized inputs' shapes — per input, first the
feature-name collision check, then the sampling-identity check against
the first input. Returns the first violation, if any. -/
def eagerGlueValidate (firstId : Nat) :
    List Node → List String → Option GraphError
  | [], _ => none
  | n :: rest, seen =>
    match firstDupName n.features seen with
    | some x => some (.duplicateFeature x)
    | none =>
      if n.samplingId = firstId then
        eagerGlueValidate firstId rest
          ((n.features.map (fun f => f.name)).reverse ++ seen)
      else
        some .samplingMismatch

/-- Modelled from the spec (§4.3, §4.4): the observable eager-mode
behavior of each operator in the catalog, written directly per operator
family — validation performed on the materialized inputs' schemas, and on
success the kernel applied immediately with the result's shape stated
inline. -/
def eagerInvoke (k : Kernel) : OpCall → List EventSet → Except GraphError EventSet
  | .unaryCall op, [es] =>
    (match es.node.features.find?
        (fun f => !(decide (f.dtype ∈ allowed_dtypes op))) with
     | some f => .error (.dtypeError (allowed_dtypes op) f.name f.dtype)
     | none =>
       .ok { node := { features := es.node.features.map
                         (fun f => { name := f.name
                                     dtype := get_output_dtype op f.dtype })
                       samplingId := es.node.samplingId
                       indexes := es.node.indexes
                       is_unix_timestamp := es.node.is_unix_timestamp }
             payload := k (.unaryCall op) [es.payload] })
  | .calendarMinuteCall, [es] =>
    if es.node.is_unix_timestamp then
      .ok { node := { features := [{ name := "calendar_minute"
                                     dtype := .int32 }]
                      samplingId := es.node.samplingId
                      indexes := es.node.indexes
                      is_unix_timestamp := true }
            payload := k .calendarMinuteCall [es.payload] }
    else
      .error .precondNotUnixTimestamp
  | .glueCall, data =>
    if data.length < 2 then .error .arityTooFew
    else if MAX_NUM_ARGUMENTS ≤ data.length then .error .arityTooMany
    else
      match data with
      | [] => .error .arityTooFew
      | first :: _ =>
        match eagerGlueValidate first.node.samplingId
            (data.map (fun e => e.node)) [] with
        | some e => .error e
        | none =>
          .ok { node := { features :=
                            (data.map (fun e => e.node.features)).flatten
                          samplingId := first.node.samplingId
                          indexes := first.node.indexes
                          is_unix_timestamp := first.node.is_unix_timestamp }
                payload := k .glueCall (data.map (fun e => e.payload)) }
  | _, _ => .error .arityTooFew

/-! ## Derived notions used in the statements -/

/-- The features contributed by a list of glue inputs, in input-slot
order. -/
def flatFeatures (ns : List Node) : List FeatureSchema :=
  (ns.map (fun n => n.features)).flatten

/-- The feature names contributed by a list of glue inputs, in input-slot
order. -/
def flatNames (ns : List Node) : List String :=
  (ns.map (fun n => n.features.map (fun f => f.name))).flatten

/-! ## Concrete instances used in closed statements -/

def mismatchDupLeft : Node :=
  { features := [{ name := "x", dtype := .float64 }], samplingId := 0,
    indexes := [], is_unix_timestamp := true }

def mismatchDupRight : Node :=
  { features := [{ name := "x", dtype := .float64 }], samplingId := 1,
    indexes := [], is_unix_timestamp := true }

def mismatchOnlyLeft : Node :=
  { features := [{ name := "x", dtype := .float64 }], samplingId := 0,
    indexes := [], is_unix_timestamp := true }

def mismatchOnlyRight : Node :=
  { features := [{ name := "y", dtype := .float64 }], samplingId := 1,
    indexes := [], is_unix_timestamp := true }

def unaryProbe : Node :=
  { features := [{ name := "f1", dtype := .int32 }, { name := "f2", dtype := .float64 }],
    samplingId := 3, indexes := [{ name := "i", dtype := .string }],
    is_unix_timestamp := true }

def logBoolProbe : Node :=
  { features := [{ name := "flag", dtype := .boolean }], samplingId := 0,
    indexes := [], is_unix_timestamp := false }

def glueScenarioA : Node :=
  { features := [{ name := "a", dtype := .float64 }, { name := "b", dtype := .float64 }],
    samplingId := 7, indexes := [{ name := "k", dtype := .int64 }],
    is_unix_timestamp := true }

def glueScenarioB : Node :=
  { features := [{ name := "c", dtype := .float64 }, { name := "d", dtype := .float64 }],
    samplingId := 7, indexes := [{ name := "k", dtype := .int64 }],
    is_unix_timestamp := true }

def dupAcrossFirst : Node :=
  { features := [{ name := "x", dtype := .float64 }], samplingId := 0,
    indexes := [], is_unix_timestamp := true }

def dupAcrossMid : Node :=
  { features := [{ name := "y", dtype := .float64 }], samplingId := 1,
    indexes := [], is_unix_timestamp := true }

def dupAcrossLast : Node :=
  { features := [{ name := "x", dtype := .float64 }], samplingId := 0,
    indexes := [], is_unix_timestamp := true }

def dupSameFirst : Node :=
  { features := [{ name := "x", dtype := .float64 }], samplingId := 2,
    indexes := [], is_unix_timestamp := false }

def dupSameMid : Node :=
  { features := [{ name := "y", dtype := .float64 }], samplingId := 2,
    indexes := [], is_unix_timestamp := false }

def dupSameLast : Node :=
  { features := [{ name := "x", dtype := .float64 }], samplingId := 2,
    indexes := [], is_unix_timestamp := false }

def assocNodeA : Node :=
  { features := [{ name := "a", dtype := .float64 }], samplingId := 6,
    indexes := [{ name := "k", dtype := .int32 }], is_unix_timestamp := false }

def assocNodeB : Node :=
  { features := [{ name := "b", dtype := .int64 }], samplingId := 6,
    indexes := [{ name := "k", dtype := .int32 }], is_unix_timestamp := false }

def assocNodeC : Node :=
  { features := [{ name := "c", dtype := .boolean }], samplingId := 6,
    indexes := [{ name := "k", dtype := .int32 }], is_unix_timestamp := false }

def unixSamplingProbe : Node :=
  { features := [{ name := "v", dtype := .float64 }], samplingId := 4,
    indexes := [], is_unix_timestamp := true }

def plainSamplingProbe : Node :=
  { features := [], samplingId := 5, indexes := [], is_unix_timestamp := false }

def arityProbe : Node :=
  { features := [], samplingId := 0, indexes := [], is_unix_timestamp := false }

def eagerScenarioA : EventSet :=
  { node := { features := [{ name := "p", dtype := .float64 }], samplingId := 9,
              indexes := [], is_unix_timestamp := true },
    payload := [1, 2, 3] }

def eagerScenarioB : EventSet :=
  { node := { features := [{ name := "q", dtype := .float64 }], samplingId := 9,
              indexes := [], is_unix_timestamp := true },
    payload := [4, 5, 6] }

def flattenKernel : Kernel := fun _ ps => ps.flatten

/-! ## Properties of the duplicate-feature check -/

theorem glueCheckFeatures_ok_eq : ∀ (fs : List FeatureSchema) (seen s : List String),
    glueCheckFeatures fs seen = .ok s →
    s = (fs.map (fun f => f.name)).reverse ++ seen := by
  intro fs
  induction fs with
  | nil =>
    intro seen s h
    simp only [glueCheckFeatures, Except.ok.injEq] at h
    simp [h]
  | cons f rest ih =>
    intro seen s h
    simp only [glueCheckFeatures] at h
    by_cases hf : f.name ∈ seen
    · simp [hf] at h
    · rw [if_neg hf] at h
      have hs := ih _ _ h
      subst hs
      simp

theorem glueCheckFeatures_ok_fresh : ∀ (fs : List FeatureSchema) (seen s : List String),
    glueCheckFeatures fs seen = .ok s →
    (fs.map (fun f => f.name)).Nodup ∧ ∀ x ∈ fs.map (fun f => f.name), x ∉ seen := by
  intro fs
  induction fs with
  | nil => intro seen s _; simp
  | cons f rest ih =>
    intro seen s h
    simp only [glueCheckFeatures] at h
    by_cases hf : f.name ∈ seen
    · simp [hf] at h
    · rw [if_neg hf] at h
      obtain ⟨hnd, hfresh⟩ := ih _ _ h
      refine ⟨?_, ?_⟩
      · simp only [List.map_cons, List.nodup_cons]
        refine ⟨fun hmem => ?_, hnd⟩
        exact (hfresh _ hmem) (List.mem_cons_self _ _)
      · intro x hx
        simp only [List.map_cons, List.mem_cons] at hx
        rcases hx with hx | hx
        · exact hx ▸ hf
        · intro hxseen
          exact (hfresh _ hx) (List.mem_cons_of_mem _ hxseen)

theorem glueCheckFeatures_ok_of : ∀ (fs : List FeatureSchema) (seen : List String),
    (fs.map (fun f => f.name)).Nodup →
    (∀ x ∈ fs.map (fun f => f.name), x ∉ seen) →
    glueCheckFeatures fs seen = .ok ((fs.map (fun f => f.name)).reverse ++ seen) := by
  intro fs
  induction fs with
  | nil => intro seen _ _; simp [glueCheckFeatures]
  | cons f rest ih =>
    intro seen hnd hfresh
    simp only [List.map_cons, List.nodup_cons] at hnd
    have hf : f.name ∉ seen := hfresh _ (by simp)
    have hrest : ∀ x ∈ rest.map (fun f => f.name), x ∉ f.name :: seen := by
      intro x hx
      simp only [List.mem_cons, not_or]
      refine ⟨fun hxf => hnd.1 (hxf ▸ hx), hfresh _ (by simp [hx])⟩
    simp only [glueCheckFeatures, if_neg hf]
    rw [ih _ hnd.2 hrest]
    simp

theorem glueCheckFeatures_error_spec : ∀ (fs : List FeatureSchema) (seen : List String)
    (e : GraphError), glueCheckFeatures fs seen = .error e →
    ∃ x, e = .duplicateFeature x ∧ x ∈ fs.map (fun f => f.name) ∧
      (x ∈ seen ∨ 2 ≤ (fs.map (fun f => f.name)).count x) := by
  intro fs
  induction fs with
  | nil => intro seen e h; simp [glueCheckFeatures] at h
  | cons f rest ih =>
    intro seen e h
    simp only [glueCheckFeatures] at h
    by_cases hf : f.name ∈ seen
    · rw [if_pos hf] at h
      refine ⟨f.name, ?_, by simp, Or.inl hf⟩
      simpa using h.symm
    · rw [if_neg hf] at h
      obtain ⟨x, he, hx, hdup⟩ := ih _ _ h
      refine ⟨x, he, by simp [hx], ?_⟩
      rcases hdup with hxseen | hcount
      · simp only [List.mem_cons] at hxseen
        rcases hxseen with hxf | hxseen
        · right
          have hpos : 0 < (rest.map (fun f => f.name)).count x :=
            List.count_pos_iff.mpr hx
          subst hxf
          simp only [List.map_cons, List.count_cons_self]
          omega
        · exact Or.inl hxseen
      · right
        simp only [List.map_cons]
        rcases Nat.le_total ((rest.map (fun g => g.name)).count x) ((f.name :: rest.map (fun g => g.name)).count x) with hle | hle
        · omega
        · have := List.count_cons x f.name (rest.map (fun g => g.name))
          omega

/-! ## Properties of the glue input loop -/

theorem flatNames_cons (n : Node) (ns : List Node) :
    flatNames (n :: ns) = n.features.map (fun f => f.name) ++ flatNames ns := by
  simp [flatNames]

theorem flatFeatures_cons (n : Node) (ns : List Node) :
    flatFeatures (n :: ns) = n.features ++ flatFeatures ns := by
  simp [flatFeatures]

theorem flatNames_append (l l' : List Node) :
    flatNames (l ++ l') = flatNames l ++ flatNames l' := by
  simp [flatNames]

/-- Processing the first input with no pivot yet is the same as
processing it against itself as pivot: the skipped sampling check is
trivially satisfied. -/
theorem glueLoop_none_eq_some (n : Node) (rest : List Node) (seen : List String)
    (acc : List FeatureSchema) :
    glueLoop (n :: rest) seen acc none = glueLoop (n :: rest) seen acc (some n) := by
  simp only [glueLoop]
  cases glueCheckFeatures n.features seen with
  | error e => rfl
  | ok seen' => simp

/-- Splitting the running no-duplicates invariant of the glue loop at the
head input. -/
theorem glue_nodup_split {seen : List String} {n : Node} {rest : List Node}
    (hnd : (seen.reverse ++ flatNames (n :: rest)).Nodup) :
    (n.features.map (fun f => f.name)).Nodup ∧
    (∀ x ∈ n.features.map (fun f => f.name), x ∉ seen) ∧
    (((n.features.map (fun f => f.name)).reverse ++ seen).reverse ++
        flatNames rest).Nodup := by
  rw [flatNames_cons] at hnd
  have hnd3 : (((n.features.map (fun f => f.name)).reverse ++ seen).reverse ++
      flatNames rest).Nodup := by
    have hlist : ((n.features.map (fun f => f.name)).reverse ++ seen).reverse ++
        flatNames rest =
        seen.reverse ++ (n.features.map (fun f => f.name) ++ flatNames rest) := by
      simp [List.append_assoc]
    rw [hlist]
    exact hnd
  rw [List.nodup_append] at hnd
  obtain ⟨hseen, hmid, hdisj⟩ := hnd
  rw [List.nodup_append] at hmid
  refine ⟨hmid.1, ?_, hnd3⟩
  intro x hx hxseen
  exact hdisj (List.mem_reverse.mpr hxseen) (List.mem_append_left _ hx)

/-- Stepping the glue loop past an input whose duplicate check
succeeds. -/
theorem glueLoop_cons_ok {n : Node} {seen s : List String}
    (rest : List Node) (acc : List FeatureSchema)
    (h : glueCheckFeatures n.features seen = .ok s) (a : Node) :
    glueLoop (n :: rest) seen acc (some a) =
      if n.samplingId = a.samplingId then
        glueLoop rest s (acc ++ n.features) (some a)
      else .error .samplingMismatch := by
  simp only [glueLoop, h]

/-- The glue loop propagates a duplicate-check failure. -/
theorem glueLoop_cons_error {n : Node} {seen : List String} {e : GraphError}
    (rest : List Node) (acc : List FeatureSchema) (first : Option Node)
    (h : glueCheckFeatures n.features seen = .error e) :
    glueLoop (n :: rest) seen acc first = .error e := by
  simp only [glueLoop, h]

theorem glueLoop_some_ok : ∀ (ns : List Node) (a : Node) (seen : List String)
    (acc : List FeatureSchema),
    (seen.reverse ++ flatNames ns).Nodup →
    (∀ n ∈ ns, n.samplingId = a.samplingId) →
    glueLoop ns seen acc (some a) = .ok (acc ++ flatFeatures ns, a) := by
  intro ns
  induction ns with
  | nil => intro a seen acc _ _; simp [glueLoop, flatFeatures]
  | cons n rest ih =>
    intro a seen acc hnd hsamp
    obtain ⟨hnames, hfresh, hnd'⟩ := glue_nodup_split hnd
    rw [glueLoop_cons_ok rest acc (glueCheckFeatures_ok_of _ _ hnames hfresh) a,
      if_pos (hsamp n (List.mem_cons_self _ _)),
      ih a _ _ hnd' (fun m hm => hsamp m (List.mem_cons_of_mem _ hm)),
      flatFeatures_cons]
    simp [List.append_assoc]

theorem glueLoop_some_mismatch : ∀ (ns : List Node) (a : Node)
    (seen : List String) (acc : List FeatureSchema),
    (seen.reverse ++ flatNames ns).Nodup →
    (∃ n ∈ ns, n.samplingId ≠ a.samplingId) →
    glueLoop ns seen acc (some a) = .error .samplingMismatch := by
  intro ns
  induction ns with
  | nil => intro a seen acc _ h; simp at h
  | cons n rest ih =>
    intro a seen acc hnd hex
    obtain ⟨hnames, hfresh, hnd'⟩ := glue_nodup_split hnd
    rw [glueLoop_cons_ok rest acc (glueCheckFeatures_ok_of _ _ hnames hfresh) a]
    by_cases hs : n.samplingId = a.samplingId
    · rw [if_pos hs]
      apply ih a _ _ hnd'
      obtain ⟨m, hm, hne⟩ := hex
      rcases List.mem_cons.mp hm with rfl | hm
      · exact absurd hs hne
      · exact ⟨m, hm, hne⟩
    · rw [if_neg hs]

theorem glueLoop_some_dup : ∀ (ns : List Node) (a : Node) (seen : List String)
    (acc : List FeatureSchema),
    seen.Nodup →
    (∀ n ∈ ns, n.samplingId = a.samplingId) →
    ¬ (seen.reverse ++ flatNames ns).Nodup →
    ∃ x, glueLoop ns seen acc (some a) = .error (.duplicateFeature x) ∧
      2 ≤ (seen.reverse ++ flatNames ns).count x := by
  intro ns
  induction ns with
  | nil =>
    intro a seen acc hseen _ hnd
    exfalso
    apply hnd
    have : flatNames ([] : List Node) = [] := by simp [flatNames]
    rw [this, List.append_nil]
    exact List.nodup_reverse.mpr hseen
  | cons n rest ih =>
    intro a seen acc hseen hsamp hnd
    cases hc : glueCheckFeatures n.features seen with
    | error e =>
      obtain ⟨x, he, hx, hdup⟩ := glueCheckFeatures_error_spec _ _ _ hc
      subst he
      refine ⟨x, glueLoop_cons_error rest acc (some a) hc, ?_⟩
      rw [flatNames_cons, List.count_append, List.count_append]
      have h1 : 1 ≤ (n.features.map (fun f => f.name)).count x :=
        List.count_pos_iff.mpr hx
      rcases hdup with hxseen | h2
      · have h0 : 1 ≤ seen.reverse.count x :=
          List.count_pos_iff.mpr (List.mem_reverse.mpr hxseen)
        omega
      · omega
    | ok s =>
      have hs := glueCheckFeatures_ok_eq _ _ _ hc
      obtain ⟨hnames, hfresh⟩ := glueCheckFeatures_ok_fresh _ _ _ hc
      subst hs
      rw [glueLoop_cons_ok rest acc hc a,
        if_pos (hsamp n (List.mem_cons_self _ _))]
      have hseen' : ((n.features.map (fun f => f.name)).reverse ++ seen).Nodup := by
        rw [List.nodup_append]
        refine ⟨List.nodup_reverse.mpr hnames, hseen, ?_⟩
        intro x hx hx2
        exact (hfresh x (List.mem_reverse.mp hx)) hx2
      have hlist : ((n.features.map (fun f => f.name)).reverse ++ seen).reverse ++
          flatNames rest = seen.reverse ++ flatNames (n :: rest) := by
        rw [flatNames_cons]
        simp [List.append_assoc]
      have hnd' : ¬ (((n.features.map (fun f => f.name)).reverse ++ seen).reverse ++
          flatNames rest).Nodup := by
        rw [hlist]
        exact hnd
      obtain ⟨x, hres, hcount⟩ := ih a _ (acc ++ n.features) hseen'
        (fun m hm => hsamp m (List.mem_cons_of_mem _ hm)) hnd'
      refine ⟨x, hres, ?_⟩
      rw [hlist] at hcount
      exact hcount

/-- `GlueOperator.__init__` on an in-arity-range input list reduces to the
input loop with the first input as sampling pivot. -/
theorem GlueOperator_init_cons (a : Node) (rest : List Node)
    (h2 : 2 ≤ (a :: rest).length)
    (hmax : (a :: rest).length < MAX_NUM_ARGUMENTS) :
    GlueOperator_init (a :: rest) =
      match glueLoop (a :: rest) [] [] (some a) with
      | .error e => .error e
      | .ok (feats, first) =>
        .ok { features := feats, samplingId := first.samplingId,
              indexes := first.indexes,
              is_unix_timestamp := first.is_unix_timestamp } := by
  rw [GlueOperator_init.eq_def, if_neg (by omega), if_neg (by omega),
    glueLoop_none_eq_some]

/-- Successful glue construction: output features in input-slot order,
sampling/indexes/unix-flag inherited from the first input. -/
theorem GlueOperator_init_ok (a : Node) (rest : List Node)
    (h2 : 2 ≤ (a :: rest).length)
    (hmax : (a :: rest).length < MAX_NUM_ARGUMENTS)
    (hnames : (flatNames (a :: rest)).Nodup)
    (hsamp : ∀ n ∈ a :: rest, n.samplingId = a.samplingId) :
    GlueOperator_init (a :: rest) =
      .ok { features := flatFeatures (a :: rest), samplingId := a.samplingId,
            indexes := a.indexes, is_unix_timestamp := a.is_unix_timestamp } := by
  rw [GlueOperator_init_cons a rest h2 hmax,
    glueLoop_some_ok (a :: rest) a [] [] (by simpa using hnames) hsamp]
  simp

/-! ## Properties of the unary dtype check -/

theorem unaryCheckDtypes_ok_of (op : UnaryOpKind) : ∀ fs : List FeatureSchema,
    (∀ f ∈ fs, f.dtype ∈ allowed_dtypes op) → unaryCheckDtypes op fs = .ok () := by
  intro fs
  induction fs with
  | nil => intro _; rfl
  | cons f rest ih =>
    intro h
    simp only [unaryCheckDtypes, if_pos (h f (List.mem_cons_self _ _))]
    exact ih (fun g hg => h g (List.mem_cons_of_mem _ hg))

theorem unaryCheckDtypes_ok_allowed (op : UnaryOpKind) : ∀ fs : List FeatureSchema,
    unaryCheckDtypes op fs = .ok () → ∀ f ∈ fs, f.dtype ∈ allowed_dtypes op := by
  intro fs
  induction fs with
  | nil => intro _ f hf; simp at hf
  | cons f rest ih =>
    intro h g hg
    simp only [unaryCheckDtypes] at h
    by_cases hf : f.dtype ∈ allowed_dtypes op
    · rw [if_pos hf] at h
      rcases List.mem_cons.mp hg with rfl | hg
      · exact hf
      · exact ih h g hg
    · rw [if_neg hf] at h
      cases h

theorem unaryCheckDtypes_find_none (op : UnaryOpKind) : ∀ fs : List FeatureSchema,
    fs.find? (fun f => !(decide (f.dtype ∈ allowed_dtypes op))) = none →
    unaryCheckDtypes op fs = .ok () := by
  intro fs h
  apply unaryCheckDtypes_ok_of
  intro f hf
  have := List.find?_eq_none.mp h f hf
  simpa using this

theorem unaryCheckDtypes_find_some (op : UnaryOpKind) : ∀ fs : List FeatureSchema,
    ∀ f : FeatureSchema,
    fs.find? (fun f => !(decide (f.dtype ∈ allowed_dtypes op))) = some f →
    unaryCheckDtypes op fs = .error (.dtypeError (allowed_dtypes op) f.name f.dtype) := by
  intro fs
  induction fs with
  | nil => intro f h; simp at h
  | cons g rest ih =>
    intro f h
    by_cases hg : g.dtype ∈ allowed_dtypes op
    · rw [List.find?_cons_of_neg _ (by simpa using hg)] at h
      simp only [unaryCheckDtypes, if_pos hg]
      exact ih f h
    · rw [List.find?_cons_of_pos _ (by simpa using hg)] at h
      cases h
      simp only [unaryCheckDtypes, if_neg hg]

/-! ## Bridging the eager-mode checks to the graph-construction checks -/

theorem firstDupName_none_check : ∀ (fs : List FeatureSchema) (seen : List String),
    firstDupName fs seen = none →
    glueCheckFeatures fs seen = .ok ((fs.map (fun f => f.name)).reverse ++ seen) := by
  intro fs
  induction fs with
  | nil => intro seen _; simp [glueCheckFeatures]
  | cons f rest ih =>
    intro seen h
    simp only [firstDupName] at h
    by_cases hf : f.name ∈ seen
    · simp [hf] at h
    · rw [if_neg hf] at h
      simp only [glueCheckFeatures, if_neg hf]
      rw [ih _ h]
      simp

theorem firstDupName_some_check : ∀ (fs : List FeatureSchema) (seen : List String)
    (x : String), firstDupName fs seen = some x →
    glueCheckFeatures fs seen = .error (.duplicateFeature x) := by
  intro fs
  induction fs with
  | nil => intro seen x h; simp [firstDupName] at h
  | cons f rest ih =>
    intro seen x h
    simp only [firstDupName] at h
    by_cases hf : f.name ∈ seen
    · rw [if_pos hf] at h
      cases h
      simp only [glueCheckFeatures, if_pos hf]
    · rw [if_neg hf] at h
      simp only [glueCheckFeatures, if_neg hf]
      exact ih _ _ h

theorem eagerGlueValidate_none : ∀ (ns : List Node) (a : Node)
    (seen : List String) (acc : List FeatureSchema),
    eagerGlueValidate a.samplingId ns seen = none →
    glueLoop ns seen acc (some a) = .ok (acc ++ flatFeatures ns, a) := by
  intro ns
  induction ns with
  | nil => intro a seen acc _; simp [glueLoop, flatFeatures]
  | cons n rest ih =>
    intro a seen acc h
    simp only [eagerGlueValidate] at h
    cases hd : firstDupName n.features seen with
    | some x => rw [hd] at h; simp at h
    | none =>
      rw [hd] at h
      by_cases hs : n.samplingId = a.samplingId
      · rw [if_pos hs] at h
        rw [glueLoop_cons_ok rest acc (firstDupName_none_check _ _ hd) a,
          if_pos hs, ih a _ _ h, flatFeatures_cons]
        simp [List.append_assoc]
      · rw [if_neg hs] at h
        simp at h

theorem eagerGlueValidate_some : ∀ (ns : List Node) (a : Node)
    (seen : List String) (acc : List FeatureSchema) (e : GraphError),
    eagerGlueValidate a.samplingId ns seen = some e →
    glueLoop ns seen acc (some a) = .error e := by
  intro ns
  induction ns with
  | nil => intro a seen acc e h; simp [eagerGlueValidate] at h
  | cons n rest ih =>
    intro a seen acc e h
    simp only [eagerGlueValidate] at h
    cases hd : firstDupName n.features seen with
    | some x =>
      rw [hd] at h
      cases h
      exact glueLoop_cons_error rest acc (some a) (firstDupName_some_check _ _ _ hd)
    | none =>
      rw [hd] at h
      by_cases hs : n.samplingId = a.samplingId
      · rw [if_pos hs] at h
        rw [glueLoop_cons_ok rest acc (firstDupName_none_check _ _ hd) a, if_pos hs]
        exact ih a _ _ _ h
      · rw [if_neg hs] at h
        cases h
        rw [glueLoop_cons_ok rest acc (firstDupName_none_check _ _ hd) a, if_neg hs]

/-! ## Unfolding lemmas for the operator constructors -/

theorem GlueOperator_init_too_few (ns : List Node) (h : ns.length < 2) :
    GlueOperator_init ns = .error .arityTooFew := by
  rw [GlueOperator_init.eq_def, if_pos h]

theorem GlueOperator_init_too_many (ns : List Node) (h2 : 2 ≤ ns.length)
    (h : MAX_NUM_ARGUMENTS ≤ ns.length) :
    GlueOperator_init ns = .error .arityTooMany := by
  rw [GlueOperator_init.eq_def, if_neg (by omega), if_pos h]

theorem BaseUnaryOperator_init_eq_ok (op : UnaryOpKind) (input : Node)
    (h : unaryCheckDtypes op input.features = .ok ()) :
    BaseUnaryOperator_init op input =
      .ok { features := input.features.map
              (fun f => { name := f.name, dtype := get_output_dtype op f.dtype })
            samplingId := input.samplingId
            indexes := input.indexes
            is_unix_timestamp := input.is_unix_timestamp } := by
  rw [BaseUnaryOperator_init.eq_def, h]

theorem BaseUnaryOperator_init_eq_error (op : UnaryOpKind) (input : Node)
    (e : GraphError) (h : unaryCheckDtypes op input.features = .error e) :
    BaseUnaryOperator_init op input = .error e := by
  rw [BaseUnaryOperator_init.eq_def, h]

/-! ## Claims -/

/-- C10: calling the public `glue` function with exactly one input returns
that node itself unchanged — no `GlueOperator` is constructed and none of
the sampling-identity, duplicate-feature-name or arity validation runs
(the result is `ok a` for every node `a`, even one that would fail those
checks) — even though `GlueOperator.__init__` itself rejects fewer than
two inputs. -/
theorem glue_single_input_identity (a : Node) :
    glue [a] = .ok a ∧ GlueOperator_init [a] = .error .arityTooFew :=
  ⟨rfl, rfl⟩

/-- C8: boundary behavior of the glue arity check. The constructor accepts
2 to 29 inputs and rejects 0, 1 and 30: constructing with exactly
`MAX_NUM_ARGUMENTS = 30` inputs fails with the too-many-arguments error
(`len(inputs) >= MAX_NUM_ARGUMENTS` in glue.py line 40), although the
operator's own error message ("Too many (>30) arguments provided"), the
comment in `glue` ("idx in [0, MAX_NUM_ARGUMENTS)") and the 30 input
slots of `build_op_definition` all describe 30 as acceptable. -/
theorem glue_arity_boundary :
    MAX_NUM_ARGUMENTS = 30 ∧
    GlueOperator_init (List.replicate 30 arityProbe) = .error .arityTooMany ∧
    (∃ out, GlueOperator_init (List.replicate 29 arityProbe) = .ok out) ∧
    GlueOperator_init [arityProbe] = .error .arityTooFew ∧
    GlueOperator_init ([] : List Node) = .error .arityTooFew :=
  ⟨rfl, rfl, ⟨_, rfl⟩, rfl, rfl⟩

/-- C1 (counterexample): two glue inputs whose samplings differ by
identity, yet construction fails with the duplicate-feature error, not
the sampling-mismatch error, because the duplicate-name check of an input
runs before its sampling check. -/
theorem glue_mismatch_masked_by_duplicate :
    mismatchDupRight.samplingId ≠ mismatchDupLeft.samplingId ∧
    GlueOperator_init [mismatchDupLeft, mismatchDupRight] =
      .error (.duplicateFeature "x") ∧
    GlueOperator_init [mismatchDupLeft, mismatchDupRight] ≠
      .error .samplingMismatch := by
  refine ⟨by decide, rfl, ?_⟩
  intro h
  rw [show GlueOperator_init [mismatchDupLeft, mismatchDupRight] =
    .error (.duplicateFeature "x") from rfl] at h
  simp at h

/-- C1 (amended): for every construction of a `GlueOperator` with 2 to 29
input nodes whose feature names are pairwise distinct, if any input's
sampling is not identical to the first input's sampling, construction
fails with the sampling-mismatch error and no output node is produced. -/
theorem glue_sampling_mismatch_rejected (a : Node) (rest : List Node)
    (h2 : 2 ≤ (a :: rest).length)
    (hmax : (a :: rest).length < MAX_NUM_ARGUMENTS)
    (hnames : (flatNames (a :: rest)).Nodup)
    (hmix : ∃ n ∈ a :: rest, n.samplingId ≠ a.samplingId) :
    GlueOperator_init (a :: rest) = .error .samplingMismatch := by
  rw [GlueOperator_init_cons a rest h2 hmax,
    glueLoop_some_mismatch (a :: rest) a [] [] (by simpa using hnames) hmix]

/-- C1 (witness): a concrete two-input glue with disjoint feature names
and differing samplings fails with the sampling-mismatch error. -/
theorem glue_sampling_mismatch_rejected_witness :
    GlueOperator_init [mismatchOnlyLeft, mismatchOnlyRight] =
      .error .samplingMismatch :=
  glue_sampling_mismatch_rejected mismatchOnlyLeft [mismatchOnlyRight]
    (by decide) (by decide) (by decide)
    ⟨mismatchOnlyRight, by decide, by decide⟩

/-- C2: a unary elementwise operator constructed on an input all of whose
feature dtypes are allowed yields exactly one output feature per input
feature with the same name, and the output node carries the identical
sampling reference as the input node. -/
theorem unary_output_names_and_sampling (op : UnaryOpKind) (input : Node)
    (h : ∀ f ∈ input.features, f.dtype ∈ allowed_dtypes op) :
    ∃ out, BaseUnaryOperator_init op input = .ok out ∧
      out.features.map (fun f => f.name) = input.features.map (fun f => f.name) ∧
      out.features.length = input.features.length ∧
      out.samplingId = input.samplingId := by
  refine ⟨_, BaseUnaryOperator_init_eq_ok op input
    (unaryCheckDtypes_ok_of op _ h), ?_, ?_, rfl⟩
  · rw [List.map_map]
    rfl
  · simp

/-- C2 (witness): `isnan` on a node with an int32 and a float64 feature
preserves names, feature count and sampling identity. -/
theorem unary_output_names_and_sampling_witness :
    ∃ out, BaseUnaryOperator_init .isnan unaryProbe = .ok out ∧
      out.features.map (fun f => f.name) =
        unaryProbe.features.map (fun f => f.name) ∧
      out.features.length = unaryProbe.features.length ∧
      out.samplingId = unaryProbe.samplingId :=
  unary_output_names_and_sampling .isnan unaryProbe (by decide)

/-- C3: each unary operator accepts exactly its declared input dtype set
(`invert`: boolean; `isnan`/`notnan`: boolean and the four numeric
dtypes, always yielding boolean; `abs`: the four numeric dtypes,
preserving the dtype; `log`: the two float dtypes, preserving the dtype),
and constructing on a node containing a disallowed-dtype feature fails
with the dtype error of the taxonomy naming a feature and its dtype. -/
theorem unary_dtype_contract (op : UnaryOpKind) (input : Node) :
    (allowed_dtypes .invert = [.boolean] ∧
     allowed_dtypes .isnan = [.boolean, .float32, .float64, .int32, .int64] ∧
     allowed_dtypes .notnan = [.boolean, .float32, .float64, .int32, .int64] ∧
     allowed_dtypes .abs = [.float32, .float64, .int32, .int64] ∧
     allowed_dtypes .log = [.float32, .float64]) ∧
    (∀ d, get_output_dtype .invert d = .boolean ∧
      get_output_dtype .isnan d = .boolean ∧
      get_output_dtype .notnan d = .boolean ∧
      get_output_dtype .abs d = d ∧
      get_output_dtype .log d = d) ∧
    ((∃ out, BaseUnaryOperator_init op input = .ok out) ↔
      ∀ f ∈ input.features, f.dtype ∈ allowed_dtypes op) ∧
    (∀ f ∈ input.features, f.dtype ∉ allowed_dtypes op →
      ∃ g, BaseUnaryOperator_init op input =
          .error (.dtypeError (allowed_dtypes op) g.name g.dtype) ∧
        g ∈ input.features ∧ g.dtype ∉ allowed_dtypes op) := by
  refine ⟨⟨rfl, rfl, rfl, rfl, rfl⟩, fun d => ⟨rfl, rfl, rfl, rfl, rfl⟩, ?_, ?_⟩
  · constructor
    · rintro ⟨out, hout⟩
      cases hcheck : unaryCheckDtypes op input.features with
      | error e =>
        rw [BaseUnaryOperator_init_eq_error op input e hcheck] at hout
        cases hout
      | ok u =>
        cases u
        exact unaryCheckDtypes_ok_allowed op _ hcheck
    · intro h
      exact ⟨_, BaseUnaryOperator_init_eq_ok op input
        (unaryCheckDtypes_ok_of op _ h)⟩
  · intro f hf hnot
    have hsome : (input.features.find?
        (fun f => !(decide (f.dtype ∈ allowed_dtypes op)))).isSome := by
      rw [List.find?_isSome]
      exact ⟨f, hf, by simpa using hnot⟩
    obtain ⟨g, hg⟩ := Option.isSome_iff_exists.mp hsome
    refine ⟨g, BaseUnaryOperator_init_eq_error op input _
      (unaryCheckDtypes_find_some op _ g hg), List.mem_of_find?_eq_some hg, ?_⟩
    have := List.find?_some hg
    simpa using this

/-- C3 (witness): `log` on a node with a boolean feature fails at
construction with the dtype error naming the feature and its dtype. -/
theorem unary_dtype_contract_witness :
    ∃ g, BaseUnaryOperator_init .log logBoolProbe =
        .error (.dtypeError (allowed_dtypes .log) g.name g.dtype) ∧
      g ∈ logBoolProbe.features ∧ g.dtype ∉ allowed_dtypes .log :=
  (unary_dtype_contract .log logBoolProbe).2.2.2
    { name := "flag", dtype := .boolean } (by decide) (by decide)

/-- C4: a glue over 2 to 29 inputs with pairwise-identical sampling and
pairwise-disjoint feature names yields a single output node whose schema
lists the features of all inputs in input-slot order, whose sampling is
the first input's sampling, and whose indexes and unix-timestamp flag are
those of the first input. -/
theorem glue_output_slot_order (a : Node) (rest : List Node)
    (h2 : 2 ≤ (a :: rest).length)
    (hmax : (a :: rest).length < MAX_NUM_ARGUMENTS)
    (hnames : (flatNames (a :: rest)).Nodup)
    (hsamp : ∀ n ∈ a :: rest, n.samplingId = a.samplingId) :
    glue (a :: rest) =
      .ok { features := flatFeatures (a :: rest), samplingId := a.samplingId,
            indexes := a.indexes, is_unix_timestamp := a.is_unix_timestamp } := by
  cases rest with
  | nil => simp at h2
  | cons b tl =>
    have hstep : glue (a :: b :: tl) = GlueOperator_init (a :: b :: tl) := rfl
    rw [hstep]
    exact GlueOperator_init_ok a (b :: tl) h2 hmax hnames hsamp

/-- C4 (witness): `glue(A, B)` with A carrying features a, b and B
carrying features c, d over the same sampling yields one node with
features a, b, c, d in that order and A's sampling, indexes and
unix-timestamp flag. -/
theorem glue_output_slot_order_witness :
    glue [glueScenarioA, glueScenarioB] =
      .ok { features := flatFeatures [glueScenarioA, glueScenarioB],
            samplingId := glueScenarioA.samplingId,
            indexes := glueScenarioA.indexes,
            is_unix_timestamp := glueScenarioA.is_unix_timestamp } :=
  glue_output_slot_order glueScenarioA [glueScenarioB]
    (by decide) (by decide) (by decide) (by decide)

/-- C5 (counterexample): two distinct glue inputs contribute the feature
name `x`, yet construction fails with the sampling-mismatch error of an
earlier input, not the duplicate-feature error. -/
theorem glue_duplicate_masked_by_mismatch :
    ("x" ∈ dupAcrossFirst.features.map (fun f => f.name)) ∧
    ("x" ∈ dupAcrossLast.features.map (fun f => f.name)) ∧
    GlueOperator_init [dupAcrossFirst, dupAcrossMid, dupAcrossLast] =
      .error .samplingMismatch ∧
    ∀ name, GlueOperator_init [dupAcrossFirst, dupAcrossMid, dupAcrossLast] ≠
      .error (.duplicateFeature name) := by
  refine ⟨by decide, by decide, rfl, ?_⟩
  intro name h
  rw [show GlueOperator_init [dupAcrossFirst, dupAcrossMid, dupAcrossLast] =
    .error .samplingMismatch from rfl] at h
  simp at h

/-- C5 (amended): a glue construction over 2 to 29 inputs with
pairwise-identical sampling in which two distinct inputs contribute a
feature with the same name fails with a duplicate-feature error naming a
feature name that occurs more than once among the inputs' features. -/
theorem glue_duplicate_rejected (a : Node) (rest : List Node)
    (h2 : 2 ≤ (a :: rest).length)
    (hmax : (a :: rest).length < MAX_NUM_ARGUMENTS)
    (hsamp : ∀ n ∈ a :: rest, n.samplingId = a.samplingId)
    (hdup : ∃ l1 n1 l2 n2 l3 name, a :: rest = l1 ++ n1 :: l2 ++ n2 :: l3 ∧
      name ∈ n1.features.map (fun f => f.name) ∧
      name ∈ n2.features.map (fun f => f.name)) :
    ∃ x, GlueOperator_init (a :: rest) = .error (.duplicateFeature x) ∧
      2 ≤ (flatNames (a :: rest)).count x := by
  have hnotnd : ¬ (flatNames (a :: rest)).Nodup := by
    obtain ⟨l1, n1, l2, n2, l3, name, heq, hm1, hm2⟩ := hdup
    rw [heq]
    intro hnd
    rw [List.nodup_iff_count_le_one] at hnd
    have hcount := hnd name
    rw [flatNames_append, flatNames_append, flatNames_cons, flatNames_cons,
      List.count_append, List.count_append, List.count_append,
      List.count_append] at hcount
    have hc1 : 1 ≤ (n1.features.map (fun f => f.name)).count name :=
      List.count_pos_iff.mpr hm1
    have hc2 : 1 ≤ (n2.features.map (fun f => f.name)).count name :=
      List.count_pos_iff.mpr hm2
    omega
  rw [GlueOperator_init_cons a rest h2 hmax]
  obtain ⟨x, hres, hcnt⟩ := glueLoop_some_dup (a :: rest) a [] []
    List.nodup_nil hsamp (by simpa using hnotnd)
  refine ⟨x, ?_, by simpa using hcnt⟩
  rw [hres]

/-- C5 (witness): three same-sampling inputs where the first and the last
share the feature name `x` fail with a duplicate-feature error naming a
twice-occurring feature. -/
theorem glue_duplicate_rejected_witness :
    ∃ x, GlueOperator_init [dupSameFirst, dupSameMid, dupSameLast] =
        .error (.duplicateFeature x) ∧
      2 ≤ (flatNames [dupSameFirst, dupSameMid, dupSameLast]).count x :=
  glue_duplicate_rejected dupSameFirst [dupSameMid, dupSameLast]
    (by decide) (by decide) (by decide)
    ⟨[], dupSameFirst, [dupSameMid], dupSameLast, [], "x", rfl,
      by decide, by decide⟩

/-- C6: for nodes a, b, c with pairwise-identical sampling and pairwise
disjoint feature names, `glue(glue(a, b), c)` and `glue(a, glue(b, c))`
yield output nodes with identical feature order and identical schema
(features, sampling, indexes and unix-timestamp flag all equal). -/
theorem flatFeatures_pair (x y : Node) :
    flatFeatures [x, y] = x.features ++ y.features := by
  simp [flatFeatures]

theorem flatNames_pair (x y : Node) :
    flatNames [x, y] =
      x.features.map (fun f => f.name) ++ y.features.map (fun f => f.name) := by
  simp [flatNames]

/-- Two-input instance of the successful glue construction, with the
feature list in concatenated form. -/
theorem glue_pair_ok (x y : Node)
    (hnames : (flatNames [x, y]).Nodup) (hs : y.samplingId = x.samplingId) :
    glue [x, y] =
      .ok { features := x.features ++ y.features, samplingId := x.samplingId,
            indexes := x.indexes, is_unix_timestamp := x.is_unix_timestamp } := by
  have hstep : glue [x, y] = GlueOperator_init [x, y] := rfl
  rw [hstep, GlueOperator_init_ok x [y] (by simp) (by simp [MAX_NUM_ARGUMENTS]) hnames
    (by intro n hn2
        rcases List.mem_cons.mp hn2 with rfl | hn2
        · rfl
        · rcases List.mem_cons.mp hn2 with rfl | hn2
          · exact hs
          · simp at hn2),
    flatFeatures_pair]

/-- C6: for nodes a, b, c with pairwise-identical sampling and pairwise
disjoint feature names, `glue(glue(a, b), c)` and `glue(a, glue(b, c))`
yield output nodes with identical feature order and identical schema
(features, sampling, indexes and unix-timestamp flag all equal). -/
theorem glue_assoc (a b c : Node)
    (hnames : (flatNames [a, b, c]).Nodup)
    (hsb : b.samplingId = a.samplingId) (hsc : c.samplingId = a.samplingId) :
    ∃ ab bc out,
      glue [a, b] = .ok ab ∧ glue [b, c] = .ok bc ∧
      glue [ab, c] = .ok out ∧ glue [a, bc] = .ok out ∧
      out.features = a.features ++ (b.features ++ c.features) ∧
      out.samplingId = a.samplingId ∧ out.indexes = a.indexes ∧
      out.is_unix_timestamp = a.is_unix_timestamp := by
  have hn : (a.features.map (fun f => f.name) ++
      (b.features.map (fun f => f.name) ++
        c.features.map (fun f => f.name))).Nodup := by
    simpa [flatNames] using hnames
  have hnassoc : ((a.features.map (fun f => f.name) ++
      b.features.map (fun f => f.name)) ++
        c.features.map (fun f => f.name)).Nodup := by
    rwa [List.append_assoc]
  have hnab : (flatNames [a, b]).Nodup := by
    rw [flatNames_pair]
    exact hnassoc.of_append_left
  have hnbc : (flatNames [b, c]).Nodup := by
    rw [flatNames_pair]
    exact hn.of_append_right
  refine ⟨{ features := a.features ++ b.features, samplingId := a.samplingId,
            indexes := a.indexes, is_unix_timestamp := a.is_unix_timestamp },
          { features := b.features ++ c.features, samplingId := b.samplingId,
            indexes := b.indexes, is_unix_timestamp := b.is_unix_timestamp },
          { features := a.features ++ (b.features ++ c.features),
            samplingId := a.samplingId, indexes := a.indexes,
            is_unix_timestamp := a.is_unix_timestamp },
          glue_pair_ok a b hnab hsb, glue_pair_ok b c hnbc
            (hsc.trans hsb.symm), ?_, ?_, rfl, rfl, rfl, rfl⟩
  · have h3 := glue_pair_ok
      { features := a.features ++ b.features, samplingId := a.samplingId,
        indexes := a.indexes, is_unix_timestamp := a.is_unix_timestamp } c
      (by rw [flatNames_pair]; simpa using hnassoc) (by exact hsc)
    rw [h3]
    simp [List.append_assoc]
  · have h4 := glue_pair_ok a
      { features := b.features ++ c.features, samplingId := b.samplingId,
        indexes := b.indexes, is_unix_timestamp := b.is_unix_timestamp }
      (by rw [flatNames_pair]; simpa using hn) (by exact hsb)
    rw [h4]

/-- C6 (witness): three concrete single-feature nodes over one sampling
glue associatively to the same output node. -/
theorem glue_assoc_witness :
    ∃ ab bc out,
      glue [assocNodeA, assocNodeB] = .ok ab ∧
      glue [assocNodeB, assocNodeC] = .ok bc ∧
      glue [ab, assocNodeC] = .ok out ∧ glue [assocNodeA, bc] = .ok out ∧
      out.features = assocNodeA.features ++
        (assocNodeB.features ++ assocNodeC.features) ∧
      out.samplingId = assocNodeA.samplingId ∧
      out.indexes = assocNodeA.indexes ∧
      out.is_unix_timestamp = assocNodeA.is_unix_timestamp :=
  glue_assoc assocNodeA assocNodeB assocNodeC (by decide) (by decide) (by decide)

/-- C7: `calendar_minute` requires its input sampling's unix-timestamp
flag to be true, failing with the precondition error otherwise; on
success, whatever the input's features are, it yields a node with exactly
one feature named `calendar_minute` of dtype int32 on the input's
sampling; and the modelled minute computation always lands in 0..59,
mapping the example timestamps 2020-01-01 18:30 and 2020-01-01 23:59 to
30 and 59. -/
theorem calendar_minute_contract (n : Node) (t : Int) :
    (n.is_unix_timestamp = false →
      calendar_minute n = .error .precondNotUnixTimestamp) ∧
    (n.is_unix_timestamp = true →
      calendar_minute n =
        .ok { features := [{ name := "calendar_minute", dtype := DType.int32 }],
              samplingId := n.samplingId, indexes := n.indexes,
              is_unix_timestamp := true }) ∧
    (0 ≤ minuteOfTimestamp t ∧ minuteOfTimestamp t < 60) ∧
    minuteOfTimestamp 1577903400 = 30 ∧ minuteOfTimestamp 1577923140 = 59 := by
  refine ⟨?_, ?_, ⟨Int.emod_nonneg _ (by norm_num),
    Int.emod_lt_of_pos _ (by norm_num)⟩, by decide, by decide⟩
  · intro h
    simp [calendar_minute, BaseCalendarOperator_init,
      CalendarMinuteOperator_output_feature_name, h]
  · intro h
    simp [calendar_minute, BaseCalendarOperator_init,
      CalendarMinuteOperator_output_feature_name, h]

/-- C7 (witness): a unix-timestamp sampling yields the single
calendar_minute int32 feature, a non-unix sampling fails with the
precondition error, and the example timestamp maps to minute 30. -/
theorem calendar_minute_contract_witness :
    calendar_minute unixSamplingProbe =
      .ok { features := [{ name := "calendar_minute", dtype := DType.int32 }],
            samplingId := unixSamplingProbe.samplingId,
            indexes := unixSamplingProbe.indexes,
            is_unix_timestamp := true } ∧
    calendar_minute plainSamplingProbe = .error .precondNotUnixTimestamp ∧
    minuteOfTimestamp 1577903400 = 30 :=
  ⟨(calendar_minute_contract unixSamplingProbe 0).2.1 rfl,
   (calendar_minute_contract plainSamplingProbe 0).1 rfl,
   (calendar_minute_contract plainSamplingProbe 1577903400).2.2.2.1⟩

/-- C9: for every operator in the catalog and every kernel assignment,
eager-mode invocation on materialized EventSets (per-operator validation
on the inputs' schemas with the kernel applied immediately) yields the
same output data and the same validation errors as graph-mode invocation
(wrapping the EventSets as graph-input nodes, building the one-shot
operator graph, and running the evaluation engine on it). -/
theorem eager_graph_mode_equivalent (k : Kernel) (op : OpCall)
    (data : List EventSet) (_hop : op ∈ operatorCatalog) :
    eagerInvoke k op data = graphModeInvoke k op data := by
  cases op with
  | unaryCall u =>
    match data with
    | [] => rfl
    | e1 :: e2 :: tl => rfl
    | [es] =>
      cases hf : es.node.features.find?
          (fun f => !(decide (f.dtype ∈ allowed_dtypes u))) with
      | some f =>
        have hinit := BaseUnaryOperator_init_eq_error u es.node _
          (unaryCheckDtypes_find_some u es.node.features f hf)
        simp only [eagerInvoke, hf]
        simp only [graphModeInvoke, constructOp, List.map_cons, List.map_nil,
          hinit, Except.map]
      | none =>
        have hinit := BaseUnaryOperator_init_eq_ok u es.node
          (unaryCheckDtypes_find_none u es.node.features hf)
        simp only [eagerInvoke, hf]
        simp only [graphModeInvoke, constructOp, List.map_cons, List.map_nil,
          hinit, Except.map, runEngine]
  | calendarMinuteCall =>
    match data with
    | [] => rfl
    | e1 :: e2 :: tl => rfl
    | [es] =>
      cases hu : es.node.is_unix_timestamp with
      | true =>
        simp only [eagerInvoke, hu, if_pos]
        simp only [graphModeInvoke, constructOp, List.map_cons, List.map_nil,
          calendar_minute, BaseCalendarOperator_init,
          CalendarMinuteOperator_output_feature_name, hu, if_pos,
          Except.map, runEngine]
      | false =>
        simp [eagerInvoke, graphModeInvoke, constructOp, calendar_minute,
          BaseCalendarOperator_init, CalendarMinuteOperator_output_feature_name,
          hu, Except.map]
  | glueCall =>
    cases data with
    | nil => rfl
    | cons e1 rest =>
      cases rest with
      | nil => rfl
      | cons e2 tl =>
        have h1 : ¬ ((e1 :: e2 :: tl).length < 2) := by
          simp only [List.length_cons]
          omega
        by_cases hbig : MAX_NUM_ARGUMENTS ≤ (e1 :: e2 :: tl).length
        · have hinit : GlueOperator_init (e1.node :: e2.node ::
              tl.map (fun e => e.node)) = .error .arityTooMany :=
            GlueOperator_init_too_many _
              (by simp only [List.length_cons, List.length_map]; omega)
              (by simpa using hbig)
          simp only [eagerInvoke, if_neg h1, if_pos hbig]
          simp only [graphModeInvoke, constructOp, List.map_cons,
            hinit, Except.map]
        · have hmax2 : (e1 :: e2 :: tl).length < MAX_NUM_ARGUMENTS :=
            Nat.lt_of_not_le hbig
          have hcons := GlueOperator_init_cons e1.node
            (e2.node :: tl.map (fun e => e.node))
            (by simp only [List.length_cons, List.length_map]; omega)
            (by simp only [List.length_cons] at hmax2
                simp only [List.length_cons, List.length_map]
                omega)
          cases hv : eagerGlueValidate e1.node.samplingId
              (e1.node :: e2.node :: tl.map (fun e => e.node)) [] with
          | some e =>
            have hloop := eagerGlueValidate_some _ e1.node [] [] e hv
            simp only [eagerInvoke, if_neg h1, if_neg hbig, List.map_cons, hv]
            simp only [graphModeInvoke, constructOp, List.map_cons, hcons,
              hloop, Except.map]
          | none =>
            have hloop := eagerGlueValidate_none _ e1.node [] [] hv
            simp only [eagerInvoke, if_neg h1, if_neg hbig, List.map_cons, hv]
            simp only [graphModeInvoke, constructOp, List.map_cons, hcons,
              hloop, Except.map, runEngine]
            simp [flatFeatures, List.map_map, Function.comp_def]

/-- C9 (witness): eager and graph mode agree on a concrete two-input glue
with a concrete kernel. -/
theorem eager_graph_mode_equivalent_witness :
    eagerInvoke flattenKernel .glueCall [eagerScenarioA, eagerScenarioB] =
      graphModeInvoke flattenKernel .glueCall [eagerScenarioA, eagerScenarioB] :=
  eager_graph_mode_equivalent flattenKernel .glueCall
    [eagerScenarioA, eagerScenarioB] (by decide)

end Temporian
